import Mathlib

/-!
# Planning flow of the parking path planner

Shallow embedding of `planning_method_flow.cpp`: the constructor of
`PlanningMethodFlow`, `ReadData`, `InitPoseData`, `HasStartPose`, `HasGoalPose`
and `Run`.  The searcher (`PlanningMethod`) is an external collaborator of this
file; the calls that the flow makes on it (`Init`, `SetObstacle`, `Search`) are
recorded, in order, as a list of `Call`s.  Doubles are read as exact rationals;
`unsigned int` values are natural numbers below `2^32`.  Undefined behaviour (a
conversion of a `double` that is not an `unsigned int`, a read outside `data`)
is the result `none`.
-/

namespace PlanningFlow

/-! ## Messages -/

/-- The message `nav_msgs::OccupancyGrid`, reduced to the fields the flow reads:
`info.origin.position.x`, `info.origin.position.y`, `info.width`, `info.height`,
`info.resolution` and the row-major `data` array of signed bytes. -/
structure OccupancyGrid where
  origin_x : ℚ
  origin_y : ℚ
  width : Nat
  height : Nat
  resolution : ℚ
  data : List Int
deriving DecidableEq

/-- The orientation of a pose message. -/
structure Quaternion where
  x : ℚ
  y : ℚ
  z : ℚ
  w : ℚ
deriving DecidableEq

/-- The pose of an init-pose or goal-pose message: `position.x`, `position.y`
and `orientation`. -/
structure PoseMsg where
  x : ℚ
  y : ℚ
  orientation : Quaternion
deriving DecidableEq

/-- The type `Vec3d`: the state `(x, y, yaw)` handed to `Search`. -/
structure Vec3d where
  x : ℚ
  y : ℚ
  yaw : ℚ
deriving DecidableEq

/-- A call made on `kinodynamic_searcher_ptr_`. -/
inductive Call where
  | Init (x_lower x_upper y_lower y_upper state_grid_resolution map_grid_resolution : ℚ)
  | SetObstacle (w h : Nat)
  | Search (start_state goal_state : Vec3d)
deriving DecidableEq

/-- Recognises a `Search` call. -/
def Call.isSearch : Call → Bool
  | Call.Search _ _ => true
  | _ => false

/-! ## Parameters and constructor -/

/-- The parameter store behind `ros::NodeHandle`, seen through the two
instantiations of `nh.param<T>` that the constructor uses: a lookup at type
`int` and a lookup at type `double`; `none` stands for a parameter that is not
set. -/
structure NodeHandle where
  getInt : String → Option Int
  getDouble : String → Option ℚ

/-- The call `nh.param(name, default_val)` with `default_val` an `int` literal. -/
def NodeHandle.paramInt (nh : NodeHandle) (name : String) (default_val : Int) : Int :=
  match nh.getInt name with
  | some v => v
  | none => default_val

/-- The call `nh.param(name, default_val)` with `default_val` a `double` literal. -/
def NodeHandle.paramDouble (nh : NodeHandle) (name : String) (default_val : ℚ) : ℚ :=
  match nh.getDouble name with
  | some v => v
  | none => default_val

/-- The searcher as constructed: the nine arguments of
`std::make_shared<PlanningMethod>(...)` at lines 26 to 28, by position.  The
declaration of `PlanningMethod` is not part of the sources, so the parameter
names of its constructor are not known and the fields are numbered. -/
structure PlanningMethod where
  arg1 : ℚ
  arg2 : Int
  arg3 : ℚ
  arg4 : Int
  arg5 : ℚ
  arg6 : ℚ
  arg7 : ℚ
  arg8 : ℚ
  arg9 : ℚ
deriving DecidableEq

/-- The members of `PlanningMethodFlow` that `Run` reads or writes. -/
structure PlanningMethodFlow where
  kinodynamic_searcher : PlanningMethod
  has_map : Bool
  costmap_deque : List OccupancyGrid
  init_pose_deque : List PoseMsg
  goal_pose_deque : List PoseMsg
  current_costmap : Option OccupancyGrid
  current_init_pose : Option PoseMsg
  current_goal_pose : Option PoseMsg
deriving DecidableEq

/-- The constructor `PlanningMethodFlow::PlanningMethodFlow(nh)`.  The default
of `planner/steering_angle` is the `int` literal `10`, so that parameter is read
by `nh.param<int>` and the `int` result is then stored in a `double`. -/
def PlanningMethodFlow.new (nh : NodeHandle) : PlanningMethodFlow :=
  let steering_angle : ℚ := ((nh.paramInt "planner/steering_angle" 10 : Int) : ℚ)
  let steering_angle_discrete_num : Int := nh.paramInt "planner/steering_angle_discrete_num" 1
  let wheel_base : ℚ := nh.paramDouble "planner/wheel_base" 1.0
  let segment_length : ℚ := nh.paramDouble "planner/segment_length" 1.6
  let segment_length_discrete_num : Int := nh.paramInt "planner/segment_length_discrete_num" 8
  let steering_penalty : ℚ := nh.paramDouble "planner/steering_penalty" 1.5
  let steering_change_penalty : ℚ := nh.paramDouble "planner/steering_change_penalty" 2.0
  let reversing_penalty : ℚ := nh.paramDouble "planner/reversing_penalty" 2.0
  let shot_distance : ℚ := nh.paramDouble "planner/shot_distance" 5.0
  { kinodynamic_searcher :=
      PlanningMethod.mk steering_angle steering_angle_discrete_num segment_length
        segment_length_discrete_num wheel_base
        steering_penalty reversing_penalty steering_change_penalty shot_distance
    has_map := false
    costmap_deque := []
    init_pose_deque := []
    goal_pose_deque := []
    current_costmap := none
    current_init_pose := none
    current_goal_pose := none }

/-! ## Map loading -/

/-- The local constant `map_resolution` of `Run`. -/
def map_resolution : ℚ := 0.2

/-- The number of values of a 32-bit `unsigned int`. -/
def UINT_RANGE : Nat := 4294967296

/-- The conversion of a `double` to `unsigned int` (implicit at lines 61 and 62,
`static_cast` at lines 66 and 67): the value truncated towards zero.  The
conversion is undefined, `none`, when the truncated value is not an
`unsigned int`, that is unless `-1 < q < 2^32`. -/
def toUnsigned (q : ℚ) : Option Nat :=
  if -1 < q ∧ q < (UINT_RANGE : ℚ) then some ⌊q⌋₊ else none

/-- The bound `map_w = std::floor(info.width / map_resolution)`, stored in an
`unsigned int`. -/
def map_w (m : OccupancyGrid) : Option Nat :=
  toUnsigned ((m.width : ℚ) / map_resolution)

/-- The bound `map_h = std::floor(info.height / map_resolution)`, stored in an
`unsigned int`. -/
def map_h (m : OccupancyGrid) : Option Nat :=
  toUnsigned ((m.height : ℚ) / map_resolution)

/-- The native column `x` computed for the finer column `w`; a division by the
resolution zero has no finite quotient, whose conversion is undefined. -/
def nativeX (m : OccupancyGrid) (w : Nat) : Option Nat :=
  if m.resolution = 0 then none
  else toUnsigned (((w : ℚ) + 0.5) * map_resolution / m.resolution)

/-- The native row `y` computed for the finer row `h`. -/
def nativeY (m : OccupancyGrid) (h : Nat) : Option Nat :=
  if m.resolution = 0 then none
  else toUnsigned (((h : ℚ) + 0.5) * map_resolution / m.resolution)

/-- The index `y * info.width + x` at which `data` is read for `(w, h)`, computed
in `unsigned int` arithmetic, that is modulo `2^32`. -/
def dataIndex (m : OccupancyGrid) (w h : Nat) : Option Nat :=
  match nativeX m w, nativeY m h with
  | some x, some y => some ((y * m.width + x) % UINT_RANGE)
  | _, _ => none

/-- The body of the inner loop for the finer cell `(w, h)`: the calls it makes,
or `none` when a conversion is undefined or the read of `data` is outside the
array (undefined behaviour). -/
def cellBody (m : OccupancyGrid) (w h : Nat) : Option (List Call) :=
  match dataIndex m w h with
  | none => none
  | some i =>
    match m.data[i]? with
    | none => none
    | some v => if v ≠ 0 then some [Call.SetObstacle w h] else some []

/-- The loop `for (unsigned int i = 0; i < n; i ++) body(i)`, collecting the
calls of the iterations in order. -/
def forLoop (body : Nat → Option (List Call)) : Nat → Option (List Call)
  | 0 => some []
  | n + 1 =>
    match forLoop body n with
    | none => none
    | some before =>
      match body n with
      | none => none
      | some now => some (before ++ now)

/-- The population loop of `Run` (lines 61 to 73): `w` outer, `h` inner. -/
def populate (m : OccupancyGrid) : Option (List Call) :=
  match map_w m, map_h m with
  | some mw, some mh => forLoop (fun w => forLoop (fun h => cellBody m w h) mh) mw
  | _, _ => none

/-- The finer cell `(w, h)` reads a nonzero value of `data`. -/
def readsNonzero (m : OccupancyGrid) (w h : Nat) : Prop :=
  ∃ i v, dataIndex m w h = some i ∧ m.data[i]? = some v ∧ v ≠ 0

/-- The `Init` call that `Run` makes for the map `m` (lines 52 to 59). -/
def initCall (m : OccupancyGrid) : Call :=
  Call.Init
    m.origin_x
    (1.0 * (m.width : ℚ) * m.resolution)
    m.origin_y
    (1.0 * (m.height : ℚ) * m.resolution)
    m.resolution
    map_resolution

/-! ## Queues and the search loop -/

/-- What the three `ParseData` calls of one `ReadData` do to the deque each is
given; the subscribers are outside this file. -/
structure ReadInput where
  parseInitPose : List PoseMsg → List PoseMsg
  parseGoalPose : List PoseMsg → List PoseMsg
  parseCostmap : List OccupancyGrid → List OccupancyGrid

/-- The method `PlanningMethodFlow::ReadData`. -/
def ReadData (rd : ReadInput) (s : PlanningMethodFlow) : PlanningMethodFlow :=
  let s := { s with init_pose_deque := rd.parseInitPose s.init_pose_deque }
  let s := { s with goal_pose_deque := rd.parseGoalPose s.goal_pose_deque }
  { s with costmap_deque := rd.parseCostmap s.costmap_deque }

/-- The method `PlanningMethodFlow::HasStartPose`. -/
def HasStartPose (s : PlanningMethodFlow) : Bool := !s.init_pose_deque.isEmpty

/-- The method `PlanningMethodFlow::HasGoalPose`. -/
def HasGoalPose (s : PlanningMethodFlow) : Bool := !s.goal_pose_deque.isEmpty

/-- The state `(position.x, position.y, getYaw(orientation))` built from a pose
message; `getYaw` is `tf::getYaw`. -/
def toState (getYaw : Quaternion → ℚ) (p : PoseMsg) : Vec3d :=
  Vec3d.mk p.x p.y (getYaw p.orientation)

/-- The loop `while (HasStartPose() && HasGoalPose())` of `Run` (lines 81 to
103) on the two pose deques: each iteration is `InitPoseData` (pop the front of
both deques into the current poses) followed by one `Search` call.  The result
is the two deques and the two current poses after the loop, and the calls made. -/
def searchLoop (getYaw : Quaternion → ℚ) :
    List PoseMsg → List PoseMsg → Option PoseMsg → Option PoseMsg →
    (List PoseMsg × List PoseMsg × Option PoseMsg × Option PoseMsg) × List Call
  | i :: inits, g :: goals, _, _ =>
    let r := searchLoop getYaw inits goals (some i) (some g)
    (r.1, Call.Search (toState getYaw i) (toState getYaw g) :: r.2)
  | inits, goals, ci, cg => ((inits, goals, ci, cg), [])

/-- The method `PlanningMethodFlow::InitPoseData`: the front of each pose deque
becomes the current pose and is popped.  It is called under the loop guard
only, where both deques are non-empty. -/
def InitPoseData (s : PlanningMethodFlow) : PlanningMethodFlow :=
  let s := { s with
    current_init_pose := s.init_pose_deque.head?
    init_pose_deque := s.init_pose_deque.tail }
  { s with
    current_goal_pose := s.goal_pose_deque.head?
    goal_pose_deque := s.goal_pose_deque.tail }

/-- The search loop run on a state of the flow. -/
def searchLoopFrom (getYaw : Quaternion → ℚ) (s : PlanningMethodFlow) :
    PlanningMethodFlow × List Call :=
  let r := searchLoop getYaw s.init_pose_deque s.goal_pose_deque
    s.current_init_pose s.current_goal_pose
  ({ s with
      init_pose_deque := r.1.1
      goal_pose_deque := r.1.2.1
      current_init_pose := r.1.2.2.1
      current_goal_pose := r.1.2.2.2 }, r.2)

/-- The part of `Run` after the map block: `costmap_deque_.clear()` and the
search loop. -/
def searchPhase (getYaw : Quaternion → ℚ) (s : PlanningMethodFlow) :
    PlanningMethodFlow × List Call :=
  searchLoopFrom getYaw { s with costmap_deque := [] }

/-- The method `PlanningMethodFlow::Run`: the state after the call and the calls
made on the searcher, or `none` when the population loop reads outside `data`. -/
def Run (getYaw : Quaternion → ℚ) (rd : ReadInput) (s : PlanningMethodFlow) :
    Option (PlanningMethodFlow × List Call) :=
  let s := ReadData rd s
  if !s.has_map then
    match s.costmap_deque with
    | [] => some (s, [])
    | m :: rest =>
      match populate m with
      | none => none
      | some obstacles =>
        let s := { s with current_costmap := some m, costmap_deque := rest, has_map := true }
        let r := searchPhase getYaw s
        some (r.1, initCall m :: obstacles ++ r.2)
  else
    some (searchPhase getYaw s)

/-- A sequence of `Run` calls, one per element of the list, with the calls of
all of them in order. -/
def runs (getYaw : Quaternion → ℚ) :
    PlanningMethodFlow → List ReadInput → Option (PlanningMethodFlow × List Call)
  | s, [] => some (s, [])
  | s, rd :: rds =>
    match Run getYaw rd s with
    | none => none
    | some r1 =>
      match runs getYaw r1.1 rds with
      | none => none
      | some r2 => some (r2.1, r1.2 ++ r2.2)

/-! ## Test data -/

/-- A one-cell free map at the origin with native resolution 1. -/
def unitMap : OccupancyGrid := ⟨0, 0, 1, 1, 1, [0]⟩

/-- A one-cell map at the origin whose cell holds `-1` (unknown). -/
def unknownMap : OccupancyGrid := ⟨0, 0, 1, 1, 1, [-1]⟩

/-- A one-cell free map with native resolution 1 whose origin is `(1, 1)`. -/
def shiftedMap : OccupancyGrid := ⟨1, 1, 1, 1, 1, [0]⟩

/-- A one-cell free map whose native cell is half a unit wide. -/
def halfMap : OccupancyGrid := ⟨0, 0, 1, 1, 1 / 2, [0]⟩

/-- A free map of two by two cells, each half a unit wide. -/
def fineMap : OccupancyGrid := ⟨0, 0, 2, 2, 1 / 2, [0, 0, 0, 0]⟩

/-- A map of two cells in one row, each two units wide; the second is occupied. -/
def coarseMap : OccupancyGrid := ⟨0, 0, 2, 1, 2, [0, 1]⟩

/-- A stand-in for `tf::getYaw` in the examples. -/
def yawZ (q : Quaternion) : ℚ := q.z

/-- An example pose message. -/
def poseA : PoseMsg := ⟨0, 0, ⟨0, 0, 0, 1⟩⟩

/-- An example pose message. -/
def poseB : PoseMsg := ⟨3, 4, ⟨0, 0, 1, 0⟩⟩

/-- An example pose message. -/
def poseC : PoseMsg := ⟨1, 2, ⟨0, 0, 1, 0⟩⟩

/-- The subscribers hand over the given new messages: each `ParseData` appends
them to its deque. -/
def arrive (maps : List OccupancyGrid) (inits goals : List PoseMsg) : ReadInput :=
  ⟨fun q => q ++ inits, fun q => q ++ goals, fun q => q ++ maps⟩

/-- A parameter store in which the caller has set `planner/steering_angle` to
the `double` value `12.5` and `planner/wheel_base` to `2.5`; no parameter can be
read as an `int`. -/
def fractionalSteering : NodeHandle :=
  ⟨fun _ => none,
   fun name =>
     if name = "planner/steering_angle" then some 12.5
     else if name = "planner/wheel_base" then some 2.5
     else none⟩

/-- A parameter store with no parameter set. -/
def noParams : NodeHandle := ⟨fun _ => none, fun _ => none⟩

/-- The searcher built from `noParams`. -/
def defaultSearcher : PlanningMethod := ⟨10, 1, 1.6, 8, 1.0, 1.5, 2.0, 2.0, 5.0⟩

/-- The flow built from `noParams` after it has loaded `unitMap`. -/
def loadedFlow : PlanningMethodFlow :=
  { kinodynamic_searcher := defaultSearcher
    has_map := true
    costmap_deque := []
    init_pose_deque := []
    goal_pose_deque := []
    current_costmap := some unitMap
    current_init_pose := none
    current_goal_pose := none }

/-- The flow `loadedFlow` after one search from `poseA` to `poseB`. -/
def searchedFlow : PlanningMethodFlow :=
  { loadedFlow with current_init_pose := some poseA, current_goal_pose := some poseB }

/-- The 25 calls of the population loop on `unknownMap`. -/
def unknownMapCalls : List Call :=
  [Call.SetObstacle 0 0, Call.SetObstacle 0 1, Call.SetObstacle 0 2, Call.SetObstacle 0 3,
   Call.SetObstacle 0 4, Call.SetObstacle 1 0, Call.SetObstacle 1 1, Call.SetObstacle 1 2,
   Call.SetObstacle 1 3, Call.SetObstacle 1 4, Call.SetObstacle 2 0, Call.SetObstacle 2 1,
   Call.SetObstacle 2 2, Call.SetObstacle 2 3, Call.SetObstacle 2 4, Call.SetObstacle 3 0,
   Call.SetObstacle 3 1, Call.SetObstacle 3 2, Call.SetObstacle 3 3, Call.SetObstacle 3 4,
   Call.SetObstacle 4 0, Call.SetObstacle 4 1, Call.SetObstacle 4 2, Call.SetObstacle 4 3,
   Call.SetObstacle 4 4]

/-! ## Arithmetic of the casts -/

theorem toUnsigned_of_nonneg (q : ℚ) (h0 : 0 ≤ q) :
    toUnsigned q = if ⌊q⌋₊ < UINT_RANGE then some ⌊q⌋₊ else none := by
  have h1 : (-1 : ℚ) < q := by linarith
  have h2 : q < (UINT_RANGE : ℚ) ↔ ⌊q⌋₊ < UINT_RANGE := (Nat.floor_lt h0).symm
  unfold toUnsigned
  by_cases h : ⌊q⌋₊ < UINT_RANGE
  · rw [if_pos h, if_pos ⟨h1, h2.mpr h⟩]
  · rw [if_neg h, if_neg (fun hc => h (h2.mp hc.2))]

theorem toUnsigned_natCast_div (n : Nat) :
    toUnsigned ((n : ℚ) / map_resolution)
      = if 5 * n < UINT_RANGE then some (5 * n) else none := by
  have h : (n : ℚ) / map_resolution = ((5 * n : ℕ) : ℚ) := by
    simp only [map_resolution]; push_cast; norm_num; ring
  rw [h, toUnsigned_of_nonneg _ (Nat.cast_nonneg _), Nat.floor_natCast]

theorem map_w_eq (m : OccupancyGrid) :
    map_w m = if 5 * m.width < UINT_RANGE then some (5 * m.width) else none :=
  toUnsigned_natCast_div m.width

theorem map_h_eq (m : OccupancyGrid) :
    map_h m = if 5 * m.height < UINT_RANGE then some (5 * m.height) else none :=
  toUnsigned_natCast_div m.height

/-- The cast of a centre coordinate, for a native resolution `p / q`. -/
theorem toUnsigned_centre (i p q : Nat) (hp : 0 < p) (hq : 0 < q) :
    toUnsigned (((i : ℚ) + 0.5) * map_resolution / ((p : ℚ) / (q : ℚ)))
      = if ((2 * i + 1) * q) / (10 * p) < UINT_RANGE
          then some (((2 * i + 1) * q) / (10 * p)) else none := by
  have hp0 : (p : ℚ) ≠ 0 := Nat.cast_ne_zero.mpr (Nat.pos_iff_ne_zero.mp hp)
  have hq0 : (q : ℚ) ≠ 0 := Nat.cast_ne_zero.mpr (Nat.pos_iff_ne_zero.mp hq)
  have h : ((i : ℚ) + 0.5) * map_resolution / ((p : ℚ) / (q : ℚ))
      = (((2 * i + 1) * q : ℕ) : ℚ) / ((10 * p : ℕ) : ℚ) := by
    simp only [map_resolution]; push_cast; field_simp; ring
  rw [h, toUnsigned_of_nonneg _ (div_nonneg (Nat.cast_nonneg _) (Nat.cast_nonneg _)),
    Nat.floor_div_eq_div]

/-! ## The loops -/

theorem forLoop_succ_some (body : Nat → Option (List Call)) (n : Nat) (calls : List Call)
    (h : forLoop body (n + 1) = some calls) :
    ∃ before now, forLoop body n = some before ∧ body n = some now ∧ calls = before ++ now := by
  rw [forLoop] at h
  cases hb : forLoop body n with
  | none => rw [hb] at h; cases h
  | some before =>
    cases hn : body n with
    | none => rw [hb, hn] at h; cases h
    | some now =>
      rw [hb, hn] at h
      exact ⟨before, now, rfl, rfl, (Option.some.inj h).symm⟩

theorem forLoop_none_of_body (body : Nat → Option (List Call)) (n i : Nat) (hi : i < n)
    (h : body i = none) : forLoop body n = none := by
  induction n with
  | zero => omega
  | succ n ih =>
    rw [forLoop]
    cases hb : forLoop body n with
    | none => rfl
    | some before =>
      have hin : i = n := by
        by_contra hne
        have := ih (by omega)
        rw [hb] at this
        cases this
      subst hin
      simp [h]

theorem forLoop_isSome (body : Nat → Option (List Call)) (n : Nat)
    (h : ∀ i, i < n → (body i).isSome = true) : (forLoop body n).isSome = true := by
  induction n with
  | zero => rfl
  | succ n ih =>
    have h1 := ih (fun i hi => h i (by omega))
    have h2 := h n (by omega)
    obtain ⟨before, hb⟩ := Option.isSome_iff_exists.mp h1
    obtain ⟨now, hn⟩ := Option.isSome_iff_exists.mp h2
    simp [forLoop, hb, hn]

theorem forLoop_nil (body : Nat → Option (List Call)) (n : Nat)
    (h : ∀ i, i < n → body i = some []) : forLoop body n = some [] := by
  induction n with
  | zero => rfl
  | succ n ih =>
    simp [forLoop, ih (fun i hi => h i (by omega)), h n (by omega)]

theorem forLoop_body_some (body : Nat → Option (List Call)) (n : Nat) (calls : List Call)
    (h : forLoop body n = some calls) (i : Nat) (hi : i < n) : (body i).isSome = true := by
  cases hb : body i with
  | none => rw [forLoop_none_of_body body n i hi hb] at h; cases h
  | some c => rfl

/-- The calls of one iteration of the inner loop. -/
theorem cellBody_some (m : OccupancyGrid) (w h : Nat) (now : List Call)
    (hc : cellBody m w h = some now) :
    ∃ i v, dataIndex m w h = some i ∧ m.data[i]? = some v ∧
      now = if v ≠ 0 then [Call.SetObstacle w h] else [] := by
  unfold cellBody at hc
  cases hi : dataIndex m w h with
  | none => rw [hi] at hc; cases hc
  | some i =>
    rw [hi] at hc
    dsimp only at hc
    cases hv : m.data[i]? with
    | none => rw [hv] at hc; cases hc
    | some v =>
      rw [hv] at hc
      dsimp only at hc
      refine ⟨i, v, rfl, hv, ?_⟩
      by_cases h0 : v ≠ 0
      · rw [if_pos h0] at hc ⊢
        exact (Option.some.inj hc).symm
      · rw [if_neg h0] at hc ⊢
        exact (Option.some.inj hc).symm

theorem inner_count (m : OccupancyGrid) (w0 n : Nat) (calls : List Call)
    (hrun : forLoop (fun h => cellBody m w0 h) n = some calls) (w h : Nat) :
    ((w = w0 ∧ h < n ∧ readsNonzero m w h) → calls.count (Call.SetObstacle w h) = 1) ∧
    (¬ (w = w0 ∧ h < n ∧ readsNonzero m w h) → calls.count (Call.SetObstacle w h) = 0) := by
  induction n generalizing calls with
  | zero =>
    have : calls = [] := by simpa [forLoop] using hrun.symm
    subst this
    constructor
    · rintro ⟨_, hlt, _⟩; omega
    · intro _; rfl
  | succ n ih =>
    obtain ⟨before, now, hb, hn, rfl⟩ := forLoop_succ_some _ n calls hrun
    obtain ⟨i, v, hi, hv, rfl⟩ := cellBody_some m w0 n now hn
    obtain ⟨ih1, ih0⟩ := ih before hb
    rw [List.count_append]
    by_cases hcell : w = w0 ∧ h = n
    · obtain ⟨rfl, rfl⟩ := hcell
      have hbefore : before.count (Call.SetObstacle w h) = 0 :=
        ih0 (by rintro ⟨_, hlt, _⟩; omega)
      rw [hbefore]
      by_cases h0 : v ≠ 0
      · rw [if_pos h0]
        constructor
        · intro _; simp
        · intro hneg; exact absurd ⟨rfl, by omega, i, v, hi, hv, h0⟩ hneg
      · rw [if_neg h0]
        constructor
        · rintro ⟨_, _, i1, v1, hi1, hv1, hne⟩
          rw [hi] at hi1
          rw [← Option.some.inj hi1, hv] at hv1
          exact absurd (Option.some.inj hv1 ▸ hne) h0
        · intro _; rfl
    · have hnow : (if v ≠ 0 then [Call.SetObstacle w0 n] else []).count (Call.SetObstacle w h)
          = 0 := by
        by_cases h0 : v ≠ 0
        · rw [if_pos h0, List.count_singleton]
          have : ¬ (Call.SetObstacle w0 n = Call.SetObstacle w h) := by
            intro he; injection he with e1 e2; exact hcell ⟨e1.symm, e2.symm⟩
          simp [this]
        · rw [if_neg h0]; rfl
      rw [hnow, Nat.add_zero]
      constructor
      · rintro ⟨hw, hlt, hr⟩
        exact ih1 ⟨hw, by
          rcases Nat.lt_succ_iff_lt_or_eq.mp hlt with h1 | h1
          · exact h1
          · exact absurd ⟨hw, h1⟩ hcell, hr⟩
      · intro hneg
        exact ih0 (fun ⟨hw, hlt, hr⟩ => hneg ⟨hw, by omega, hr⟩)

theorem outer_count (m : OccupancyGrid) (k n : Nat) (calls : List Call)
    (hrun : forLoop (fun w => forLoop (fun h => cellBody m w h) k) n = some calls) (w h : Nat) :
    ((w < n ∧ h < k ∧ readsNonzero m w h) → calls.count (Call.SetObstacle w h) = 1) ∧
    (¬ (w < n ∧ h < k ∧ readsNonzero m w h) → calls.count (Call.SetObstacle w h) = 0) := by
  induction n generalizing calls with
  | zero =>
    have : calls = [] := by simpa [forLoop] using hrun.symm
    subst this
    constructor
    · rintro ⟨hlt, _, _⟩; omega
    · intro _; rfl
  | succ n ih =>
    obtain ⟨before, now, hb, hn, rfl⟩ := forLoop_succ_some _ n calls hrun
    obtain ⟨ih1, ih0⟩ := ih before hb
    obtain ⟨in1, in0⟩ := inner_count m n k now hn w h
    rw [List.count_append]
    by_cases hw : w = n
    · subst hw
      rw [ih0 (by rintro ⟨hlt, _, _⟩; omega), Nat.zero_add]
      constructor
      · rintro ⟨_, hk, hr⟩; exact in1 ⟨rfl, hk, hr⟩
      · intro hneg; exact in0 (fun ⟨_, hk, hr⟩ => hneg ⟨by omega, hk, hr⟩)
    · rw [in0 (fun ⟨e, _, _⟩ => hw e), Nat.add_zero]
      constructor
      · rintro ⟨hlt, hk, hr⟩; exact ih1 ⟨by omega, hk, hr⟩
      · intro hneg; exact ih0 (fun ⟨hlt, hk, hr⟩ => hneg ⟨by omega, hk, hr⟩)

theorem forLoop_all (P : Call → Prop) (body : Nat → Option (List Call)) (n : Nat) :
    ∀ calls : List Call, (∀ i now, i < n → body i = some now → ∀ c ∈ now, P c) →
      forLoop body n = some calls → ∀ c ∈ calls, P c := by
  induction n with
  | zero =>
    intro calls _ hrun
    have : calls = [] := by simpa [forLoop] using hrun.symm
    subst this
    intro c hc; cases hc
  | succ n ih =>
    intro calls hbody hrun
    obtain ⟨before, now, hb, hn, rfl⟩ := forLoop_succ_some _ n calls hrun
    intro c hc
    rcases List.mem_append.mp hc with h1 | h1
    · exact ih before (fun i now hi => hbody i now (by omega)) hb c h1
    · exact hbody n now (by omega) hn c h1

/-- A population loop that runs to its end has both bounds defined. -/
theorem populate_some (m : OccupancyGrid) (calls : List Call)
    (hrun : populate m = some calls) :
    ∃ mw mh, map_w m = some mw ∧ map_h m = some mh ∧
      forLoop (fun w => forLoop (fun h => cellBody m w h) mh) mw = some calls := by
  unfold populate at hrun
  cases hw : map_w m with
  | none => rw [hw] at hrun; cases hrun
  | some mw =>
    cases hh : map_h m with
    | none => rw [hw, hh] at hrun; cases hrun
    | some mh =>
      rw [hw, hh] at hrun
      exact ⟨mw, mh, rfl, rfl, hrun⟩

theorem populate_of_bounds (m : OccupancyGrid) (mw mh : Nat)
    (hw : map_w m = some mw) (hh : map_h m = some mh) :
    populate m = forLoop (fun w => forLoop (fun h => cellBody m w h) mh) mw := by
  unfold populate
  rw [hw, hh]

theorem populate_only_setObstacle (m : OccupancyGrid) (calls : List Call)
    (hrun : populate m = some calls) :
    ∀ c ∈ calls, ∃ w h, c = Call.SetObstacle w h := by
  obtain ⟨mw, mh, _, _, hloop⟩ := populate_some m calls hrun
  refine forLoop_all _ _ mw calls ?_ hloop
  intro w now _ hnow
  refine forLoop_all _ _ mh now ?_ hnow
  intro h cell _ hcell c hc
  obtain ⟨i, v, _, _, rfl⟩ := cellBody_some m w h cell hcell
  by_cases h0 : v ≠ 0
  · rw [if_pos h0] at hc
    exact ⟨w, h, List.mem_singleton.mp hc⟩
  · rw [if_neg h0] at hc; cases hc

/-- The calls of a population loop that runs to its end: `SetObstacle(w, h)`
once for each visited cell that reads a nonzero value, and for no other cell. -/
theorem populate_count (m : OccupancyGrid) (calls : List Call)
    (hrun : populate m = some calls) :
    ∃ mw mh, map_w m = some mw ∧ map_h m = some mh ∧ ∀ w h : Nat,
      ((w < mw ∧ h < mh ∧ readsNonzero m w h) → calls.count (Call.SetObstacle w h) = 1) ∧
      (¬ (w < mw ∧ h < mh ∧ readsNonzero m w h) → calls.count (Call.SetObstacle w h) = 0) := by
  obtain ⟨mw, mh, hw, hh, hloop⟩ := populate_some m calls hrun
  exact ⟨mw, mh, hw, hh, fun w h => outer_count m mh mw calls hloop w h⟩

/-- With native cells at least one unit wide, every visited finer column maps
to a column of the map. -/
theorem centre_cast_lt (r : ℚ) (hr : 1 ≤ r) (i n : Nat) (hi : i < 5 * n)
    (hn : n < UINT_RANGE) :
    ∃ x, toUnsigned (((i : ℚ) + 0.5) * map_resolution / r) = some x ∧ x < n := by
  have hr0 : (0 : ℚ) < r := by linarith
  have hi1 : (i : ℚ) + 1 ≤ 5 * (n : ℚ) := by exact_mod_cast hi
  have hn0 : (0 : ℚ) ≤ (n : ℚ) := Nat.cast_nonneg n
  have hnum : (0 : ℚ) ≤ ((i : ℚ) + 0.5) * map_resolution := by
    have : (0 : ℚ) ≤ (i : ℚ) := Nat.cast_nonneg i
    simp only [map_resolution]; norm_num; linarith
  have hq0 : (0 : ℚ) ≤ ((i : ℚ) + 0.5) * map_resolution / r := div_nonneg hnum hr0.le
  have hlt : ⌊((i : ℚ) + 0.5) * map_resolution / r⌋₊ < n := by
    rw [Nat.floor_lt hq0, div_lt_iff₀ hr0]
    have h1 : ((i : ℚ) + 0.5) * map_resolution < (n : ℚ) := by
      simp only [map_resolution]; norm_num; linarith
    nlinarith
  refine ⟨_, ?_, hlt⟩
  rw [toUnsigned_of_nonneg _ hq0, if_pos (Nat.lt_trans hlt hn)]

theorem dataIndex_lt (m : OccupancyGrid) (hr : 1 ≤ m.resolution)
    (hlen : m.data.length = m.width * m.height) (w h : Nat)
    (hw : w < 5 * m.width) (hh : h < 5 * m.height)
    (hW : m.width < UINT_RANGE) (hH : m.height < UINT_RANGE) :
    ∃ i, dataIndex m w h = some i ∧ i < m.data.length := by
  have hr0 : m.resolution ≠ 0 := by
    intro h0; rw [h0] at hr; norm_num at hr
  obtain ⟨x, hx, hxlt⟩ := centre_cast_lt m.resolution hr w m.width hw hW
  obtain ⟨y, hy, hylt⟩ := centre_cast_lt m.resolution hr h m.height hh hH
  have hnx : nativeX m w = some x := by rw [nativeX, if_neg hr0, hx]
  have hny : nativeY m h = some y := by rw [nativeY, if_neg hr0, hy]
  refine ⟨(y * m.width + x) % UINT_RANGE, by simp only [dataIndex, hnx, hny], ?_⟩
  rw [hlen]
  calc (y * m.width + x) % UINT_RANGE ≤ y * m.width + x := Nat.mod_le _ _
    _ < y * m.width + m.width := by omega
    _ = (y + 1) * m.width := by ring
    _ ≤ m.height * m.width := Nat.mul_le_mul_right _ hylt
    _ = m.width * m.height := Nat.mul_comm _ _

theorem cellBody_isSome_of_index (m : OccupancyGrid) (w h i : Nat)
    (hi : dataIndex m w h = some i) (hlt : i < m.data.length) :
    (cellBody m w h).isSome = true := by
  simp only [cellBody, hi, List.getElem?_eq_getElem hlt]
  by_cases h0 : m.data[i] ≠ 0
  · rw [if_pos h0]; rfl
  · rw [if_neg h0]; rfl

/-- With native cells at least one unit wide the population loop reads inside
`data` only and runs to its end. -/
theorem populate_total (m : OccupancyGrid) (hr : 1 ≤ m.resolution)
    (hlen : m.data.length = m.width * m.height)
    (hW : 5 * m.width < UINT_RANGE) (hH : 5 * m.height < UINT_RANGE) :
    (populate m).isSome = true := by
  have hw : map_w m = some (5 * m.width) := by rw [map_w_eq, if_pos hW]
  have hh : map_h m = some (5 * m.height) := by rw [map_h_eq, if_pos hH]
  rw [populate_of_bounds m _ _ hw hh]
  refine forLoop_isSome _ _ (fun w hw1 => forLoop_isSome _ _ (fun y hy1 => ?_))
  obtain ⟨i, hi, hlt⟩ := dataIndex_lt m hr hlen w y hw1 hy1 (by omega) (by omega)
  exact cellBody_isSome_of_index m w y i hi hlt

/-! ## The search loop and `Run` -/

theorem searchLoop_spec (getYaw : Quaternion → ℚ) :
    ∀ (inits goals : List PoseMsg) (ci cg : Option PoseMsg),
      (searchLoop getYaw inits goals ci cg).2
          = List.zipWith (fun i g => Call.Search (toState getYaw i) (toState getYaw g))
              inits goals ∧
      (searchLoop getYaw inits goals ci cg).1.1
          = inits.drop (min inits.length goals.length) ∧
      (searchLoop getYaw inits goals ci cg).1.2.1
          = goals.drop (min inits.length goals.length) := by
  intro inits
  induction inits with
  | nil => intro goals ci cg; simp [searchLoop]
  | cons i inits ih =>
    intro goals ci cg
    cases goals with
    | nil => simp [searchLoop]
    | cons g goals =>
      obtain ⟨h1, h2, h3⟩ := ih goals (some i) (some g)
      simp [searchLoop, h1, h2, h3, Nat.succ_min_succ]

/-- The search loop is the loop of the source: while `HasStartPose()` and
`HasGoalPose()` hold, `InitPoseData()` pops one pose of each deque and `Search`
is called on the two current poses. -/
theorem searchLoopFrom_step (getYaw : Quaternion → ℚ) (s : PlanningMethodFlow) :
    searchLoopFrom getYaw s =
      if (HasStartPose s && HasGoalPose s) = true then
        match (InitPoseData s).current_init_pose, (InitPoseData s).current_goal_pose with
        | some i, some g =>
          ((searchLoopFrom getYaw (InitPoseData s)).1,
            Call.Search (toState getYaw i) (toState getYaw g)
              :: (searchLoopFrom getYaw (InitPoseData s)).2)
        | _, _ => (InitPoseData s, [])
      else (s, []) := by
  obtain ⟨ks, hm, cq, iq, gq, cc, ci, cg⟩ := s
  cases iq with
  | nil => simp [searchLoopFrom, searchLoop, HasStartPose, HasGoalPose]
  | cons i iq =>
    cases gq with
    | nil => simp [searchLoopFrom, searchLoop, HasStartPose, HasGoalPose]
    | cons g gq =>
      simp [searchLoopFrom, searchLoop, HasStartPose, HasGoalPose, InitPoseData]

theorem zipWith_search_isSearch (getYaw : Quaternion → ℚ) (inits goals : List PoseMsg) :
    ∀ c ∈ List.zipWith (fun i g => Call.Search (toState getYaw i) (toState getYaw g))
      inits goals, c.isSearch = true := by
  induction inits generalizing goals with
  | nil => intro c hc; simp at hc
  | cons i inits ih =>
    cases goals with
    | nil => intro c hc; simp at hc
    | cons g goals =>
      intro c hc
      rw [List.zipWith_cons_cons, List.mem_cons] at hc
      rcases hc with rfl | hc
      · rfl
      · exact ih goals c hc

theorem searchPhase_calls (getYaw : Quaternion → ℚ) (s : PlanningMethodFlow) :
    (searchPhase getYaw s).2
      = List.zipWith (fun i g => Call.Search (toState getYaw i) (toState getYaw g))
          s.init_pose_deque s.goal_pose_deque :=
  (searchLoop_spec getYaw _ _ _ _).1

theorem searchPhase_state (getYaw : Quaternion → ℚ) (s : PlanningMethodFlow) :
    (searchPhase getYaw s).1.has_map = s.has_map ∧
    (searchPhase getYaw s).1.current_costmap = s.current_costmap ∧
    (searchPhase getYaw s).1.costmap_deque = [] ∧
    (searchPhase getYaw s).1.kinodynamic_searcher = s.kinodynamic_searcher ∧
    (searchPhase getYaw s).1.init_pose_deque
      = s.init_pose_deque.drop (min s.init_pose_deque.length s.goal_pose_deque.length) ∧
    (searchPhase getYaw s).1.goal_pose_deque
      = s.goal_pose_deque.drop (min s.init_pose_deque.length s.goal_pose_deque.length) :=
  ⟨rfl, rfl, rfl, rfl, (searchLoop_spec getYaw _ _ _ _).2.1, (searchLoop_spec getYaw _ _ _ _).2.2⟩

/-- A `Run` on a flow that has its map is the search phase alone. -/
theorem Run_loaded (getYaw : Quaternion → ℚ) (rd : ReadInput) (s : PlanningMethodFlow)
    (h : s.has_map = true) : Run getYaw rd s = some (searchPhase getYaw (ReadData rd s)) := by
  have h1 : (ReadData rd s).has_map = true := h
  simp [Run, h1]

/-- A `Run` without a map and with an empty costmap queue returns at once. -/
theorem Run_waiting (getYaw : Quaternion → ℚ) (rd : ReadInput) (s : PlanningMethodFlow)
    (h : (ReadData rd s).has_map = false) (hq : (ReadData rd s).costmap_deque = []) :
    Run getYaw rd s = some (ReadData rd s, []) := by
  simp [Run, h, hq]

/-- A `Run` without a map and with a queued map `m`. -/
theorem Run_loading (getYaw : Quaternion → ℚ) (rd : ReadInput) (s : PlanningMethodFlow)
    (m : OccupancyGrid) (rest : List OccupancyGrid)
    (h : (ReadData rd s).has_map = false) (hq : (ReadData rd s).costmap_deque = m :: rest) :
    Run getYaw rd s =
      match populate m with
      | none => none
      | some obstacles =>
        some ((searchPhase getYaw { ReadData rd s with
                current_costmap := some m, costmap_deque := rest, has_map := true }).1,
              initCall m :: obstacles ++
                (searchPhase getYaw { ReadData rd s with
                  current_costmap := some m, costmap_deque := rest, has_map := true }).2) := by
  simp [Run, h, hq]

/-! ## Sequences of `Run` calls -/

/-- Once the map is loaded, every sequence of `Run` calls completes, keeps the
map, and makes `Search` calls only. -/
theorem runs_loaded (getYaw : Quaternion → ℚ) (inputs : List ReadInput) :
    ∀ s : PlanningMethodFlow, s.has_map = true →
      ∃ s1 trace, runs getYaw s inputs = some (s1, trace) ∧ s1.has_map = true ∧
        s1.current_costmap = s.current_costmap ∧ ∀ c ∈ trace, c.isSearch = true := by
  induction inputs with
  | nil => intro s h; exact ⟨s, [], rfl, h, rfl, fun c hc => by cases hc⟩
  | cons rd rds ih =>
    intro s h
    obtain ⟨hm, hc, _, _, _, _⟩ := searchPhase_state getYaw (ReadData rd s)
    have hm1 : (searchPhase getYaw (ReadData rd s)).1.has_map = true := by rw [hm]; exact h
    obtain ⟨s1, t1, hr1, hs1, hk1, ht1⟩ := ih _ hm1
    refine ⟨s1, (searchPhase getYaw (ReadData rd s)).2 ++ t1, ?_, hs1, ?_, ?_⟩
    · simp [runs, Run_loaded getYaw rd s h, hr1]
    · rw [hk1, hc]; rfl
    · intro c hc1
      rcases List.mem_append.mp hc1 with h1 | h1
      · rw [searchPhase_calls] at h1
        exact zipWith_search_isSearch getYaw _ _ c h1
      · exact ht1 c h1

/-- The shape of the calls of a sequence of `Run`s that starts without a map:
nothing at all while no map has been loaded, and otherwise the `Init` call of
the loaded map, then the whole population loop of that map, then `Search`
calls only. -/
theorem runs_unloaded (getYaw : Quaternion → ℚ) (inputs : List ReadInput) :
    ∀ (s s1 : PlanningMethodFlow) (trace : List Call), s.has_map = false →
      runs getYaw s inputs = some (s1, trace) →
      (s1.has_map = false ∧ trace = []) ∨
      ∃ m obstacles searches, s1.has_map = true ∧ s1.current_costmap = some m ∧
        populate m = some obstacles ∧ trace = initCall m :: obstacles ++ searches ∧
        ∀ c ∈ searches, c.isSearch = true := by
  induction inputs with
  | nil =>
    intro s s1 trace h hrun
    simp only [runs, Option.some.injEq, Prod.mk.injEq] at hrun
    obtain ⟨rfl, rfl⟩ := hrun
    exact Or.inl ⟨h, rfl⟩
  | cons rd rds ih =>
    intro s s1 trace h hrun
    have h0 : (ReadData rd s).has_map = false := h
    cases hq : (ReadData rd s).costmap_deque with
    | nil =>
      rw [runs, Run_waiting getYaw rd s h0 hq] at hrun
      cases hr2 : runs getYaw (ReadData rd s) rds with
      | none => simp [hr2] at hrun
      | some r2 =>
        obtain ⟨s2, t2⟩ := r2
        simp only [hr2, Option.some.injEq, Prod.mk.injEq, List.nil_append] at hrun
        obtain ⟨rfl, rfl⟩ := hrun
        exact ih _ _ _ h0 hr2
    | cons m rest =>
      rw [runs, Run_loading getYaw rd s m rest h0 hq] at hrun
      cases hp : populate m with
      | none => simp [hp] at hrun
      | some obstacles =>
        have hm1 : (searchPhase getYaw { ReadData rd s with
            current_costmap := some m, costmap_deque := rest, has_map := true }).1.has_map
            = true := (searchPhase_state getYaw _).1
        obtain ⟨s2, t2, hr2, hs2, hk2, ht2⟩ := runs_loaded getYaw rds _ hm1
        simp only [hp, hr2, Option.some.injEq, Prod.mk.injEq] at hrun
        obtain ⟨rfl, rfl⟩ := hrun
        refine Or.inr ⟨m, obstacles, (searchPhase getYaw { ReadData rd s with
            current_costmap := some m, costmap_deque := rest, has_map := true }).2 ++ t2,
          hs2, ?_, hp, by simp, ?_⟩
        · rw [hk2]; exact (searchPhase_state getYaw _).2.1
        · intro c hc1
          rcases List.mem_append.mp hc1 with h1 | h1
          · rw [searchPhase_calls] at h1
            exact zipWith_search_isSearch getYaw _ _ c h1
          · exact ht2 c h1

/-! ## The examples evaluated -/

/-- The native column for a native resolution `p / q`. -/
theorem nativeX_ratio (m : OccupancyGrid) (p q : Nat) (hp : 0 < p) (hq : 0 < q)
    (hr : m.resolution = (p : ℚ) / (q : ℚ)) (w : Nat)
    (hlt : (2 * w + 1) * q / (10 * p) < UINT_RANGE) :
    nativeX m w = some ((2 * w + 1) * q / (10 * p)) := by
  have hp0 : (p : ℚ) ≠ 0 := Nat.cast_ne_zero.mpr (Nat.pos_iff_ne_zero.mp hp)
  have hq0 : (q : ℚ) ≠ 0 := Nat.cast_ne_zero.mpr (Nat.pos_iff_ne_zero.mp hq)
  have hr0 : m.resolution ≠ 0 := by rw [hr]; exact div_ne_zero hp0 hq0
  rw [nativeX, if_neg hr0, hr, toUnsigned_centre w p q hp hq, if_pos hlt]

/-- The native row for a native resolution `p / q`. -/
theorem nativeY_ratio (m : OccupancyGrid) (p q : Nat) (hp : 0 < p) (hq : 0 < q)
    (hr : m.resolution = (p : ℚ) / (q : ℚ)) (h : Nat)
    (hlt : (2 * h + 1) * q / (10 * p) < UINT_RANGE) :
    nativeY m h = some ((2 * h + 1) * q / (10 * p)) := by
  have hp0 : (p : ℚ) ≠ 0 := Nat.cast_ne_zero.mpr (Nat.pos_iff_ne_zero.mp hp)
  have hq0 : (q : ℚ) ≠ 0 := Nat.cast_ne_zero.mpr (Nat.pos_iff_ne_zero.mp hq)
  have hr0 : m.resolution ≠ 0 := by rw [hr]; exact div_ne_zero hp0 hq0
  rw [nativeY, if_neg hr0, hr, toUnsigned_centre h p q hp hq, if_pos hlt]

theorem dataIndex_of (m : OccupancyGrid) (w h x y : Nat) (hx : nativeX m w = some x)
    (hy : nativeY m h = some y) : dataIndex m w h = some ((y * m.width + x) % UINT_RANGE) := by
  simp only [dataIndex, hx, hy]

theorem cellBody_of_index_zero (m : OccupancyGrid) (v : Int) (rest : List Int)
    (hd : m.data = v :: rest) (w h : Nat) (hi : dataIndex m w h = some 0) :
    cellBody m w h = if v ≠ 0 then some [Call.SetObstacle w h] else some [] := by
  simp [cellBody, hi, hd]

theorem cellBody_none_of_index (m : OccupancyGrid) (w h i : Nat)
    (hi : dataIndex m w h = some i) (hd : m.data[i]? = none) : cellBody m w h = none := by
  simp only [cellBody, hi, hd]

theorem dataIndex_unit (m : OccupancyGrid) (hr : m.resolution = 1) (hw : m.width = 1)
    (hh : m.height = 1) (hd : m.data.length = 1) (w h : Nat) (hw5 : w < 5) (hh5 : h < 5) :
    dataIndex m w h = some 0 := by
  obtain ⟨i, hi, hlt⟩ := dataIndex_lt m (by rw [hr]) (by rw [hd, hw, hh]) w h
    (by rw [hw]; omega) (by rw [hh]; omega) (by rw [hw]; decide) (by rw [hh]; decide)
  have h0 : i = 0 := by omega
  rw [hi, h0]

theorem populate_unitMap : populate unitMap = some [] := by
  rw [populate_of_bounds unitMap 5 5 (by rw [map_w_eq]; rfl) (by rw [map_h_eq]; rfl)]
  refine forLoop_nil _ _ (fun w hw => forLoop_nil _ _ (fun h hh => ?_))
  have hi := dataIndex_unit unitMap rfl rfl rfl rfl w h hw hh
  rw [cellBody_of_index_zero unitMap 0 [] rfl w h hi]
  rfl

theorem populate_shiftedMap : populate shiftedMap = some [] := by
  rw [populate_of_bounds shiftedMap 5 5 (by rw [map_w_eq]; rfl) (by rw [map_h_eq]; rfl)]
  refine forLoop_nil _ _ (fun w hw => forLoop_nil _ _ (fun h hh => ?_))
  have hi := dataIndex_unit shiftedMap rfl rfl rfl rfl w h hw hh
  rw [cellBody_of_index_zero shiftedMap 0 [] rfl w h hi]
  rfl

theorem cellBody_unknownMap (w h : Nat) (hw : w < 5) (hh : h < 5) :
    cellBody unknownMap w h = some [Call.SetObstacle w h] := by
  have hi := dataIndex_unit unknownMap rfl rfl rfl rfl w h hw hh
  rw [cellBody_of_index_zero unknownMap (-1) [] rfl w h hi]
  rfl

theorem populate_unknownMap : populate unknownMap = some unknownMapCalls := by
  rw [populate_of_bounds unknownMap 5 5 (by rw [map_w_eq]; rfl) (by rw [map_h_eq]; rfl)]
  simp [forLoop, cellBody_unknownMap, unknownMapCalls]

theorem coarseMap_resolution : coarseMap.resolution = ((2 : ℕ) : ℚ) / ((1 : ℕ) : ℚ) := by
  norm_num [coarseMap]

theorem halfMap_resolution : halfMap.resolution = ((1 : ℕ) : ℚ) / ((2 : ℕ) : ℚ) := by
  norm_num [halfMap]

theorem fineMap_resolution : fineMap.resolution = ((1 : ℕ) : ℚ) / ((2 : ℕ) : ℚ) := by
  norm_num [fineMap]

theorem dataIndex_coarseMap (w h : Nat) (hw : w < 10) (hh : h < 5) :
    dataIndex coarseMap w h = some 0 := by
  have h1 : (2 * w + 1) * 1 / (10 * 2) = 0 := Nat.div_eq_of_lt (by omega)
  have h2 : (2 * h + 1) * 1 / (10 * 2) = 0 := Nat.div_eq_of_lt (by omega)
  have hx := nativeX_ratio coarseMap 2 1 (by decide) (by decide) coarseMap_resolution w
    (by rw [h1]; decide)
  have hy := nativeY_ratio coarseMap 2 1 (by decide) (by decide) coarseMap_resolution h
    (by rw [h2]; decide)
  rw [h1] at hx
  rw [h2] at hy
  rw [dataIndex_of coarseMap w h 0 0 hx hy]
  rfl

theorem populate_coarseMap : populate coarseMap = some [] := by
  rw [populate_of_bounds coarseMap 10 5 (by rw [map_w_eq]; rfl) (by rw [map_h_eq]; rfl)]
  refine forLoop_nil _ _ (fun w hw => forLoop_nil _ _ (fun h hh => ?_))
  rw [cellBody_of_index_zero coarseMap 0 [1] rfl w h (dataIndex_coarseMap w h hw hh)]
  rfl

theorem nativeX_halfMap_two : nativeX halfMap 2 = some 1 :=
  nativeX_ratio halfMap 1 2 (by decide) (by decide) halfMap_resolution 2 (by decide)

theorem nativeY_halfMap_zero : nativeY halfMap 0 = some 0 :=
  nativeY_ratio halfMap 1 2 (by decide) (by decide) halfMap_resolution 0 (by decide)

theorem dataIndex_halfMap : dataIndex halfMap 2 0 = some 1 := by
  rw [dataIndex_of halfMap 2 0 1 0 nativeX_halfMap_two nativeY_halfMap_zero]
  rfl

theorem populate_halfMap : populate halfMap = none := by
  rw [populate_of_bounds halfMap 5 5 (by rw [map_w_eq]; rfl) (by rw [map_h_eq]; rfl)]
  refine forLoop_none_of_body _ _ 2 (by decide) ?_
  refine forLoop_none_of_body _ _ 0 (by decide) ?_
  exact cellBody_none_of_index halfMap 2 0 1 dataIndex_halfMap rfl

theorem nativeX_fineMap_zero : nativeX fineMap 0 = some 0 :=
  nativeX_ratio fineMap 1 2 (by decide) (by decide) fineMap_resolution 0 (by decide)

theorem nativeY_fineMap_five : nativeY fineMap 5 = some 2 :=
  nativeY_ratio fineMap 1 2 (by decide) (by decide) fineMap_resolution 5 (by decide)

theorem nativeX_fineMap_five : nativeX fineMap 5 = some 2 :=
  nativeX_ratio fineMap 1 2 (by decide) (by decide) fineMap_resolution 5 (by decide)

theorem nativeY_fineMap_zero : nativeY fineMap 0 = some 0 :=
  nativeY_ratio fineMap 1 2 (by decide) (by decide) fineMap_resolution 0 (by decide)

theorem dataIndex_fineMap_outside : dataIndex fineMap 0 5 = some 4 := by
  rw [dataIndex_of fineMap 0 5 0 2 nativeX_fineMap_zero nativeY_fineMap_five]
  rfl

theorem dataIndex_fineMap_wrapped : dataIndex fineMap 5 0 = some 2 := by
  rw [dataIndex_of fineMap 5 0 2 0 nativeX_fineMap_five nativeY_fineMap_zero]
  rfl

theorem populate_fineMap : populate fineMap = none := by
  rw [populate_of_bounds fineMap 10 10 (by rw [map_w_eq]; rfl) (by rw [map_h_eq]; rfl)]
  refine forLoop_none_of_body _ _ 0 (by decide) ?_
  refine forLoop_none_of_body _ _ 5 (by decide) ?_
  exact cellBody_none_of_index fineMap 0 5 4 dataIndex_fineMap_outside rfl

theorem new_noParams :
    PlanningMethodFlow.new noParams = { loadedFlow with has_map := false, current_costmap := none } := by
  simp [PlanningMethodFlow.new, noParams, NodeHandle.paramInt, NodeHandle.paramDouble,
    loadedFlow, defaultSearcher]

theorem initCall_unitMap : initCall unitMap = Call.Init 0 1 0 1 1 0.2 := by
  norm_num [initCall, unitMap, map_resolution]

theorem initCall_shiftedMap : initCall shiftedMap = Call.Init 1 1 1 1 1 0.2 := by
  norm_num [initCall, shiftedMap, map_resolution]

theorem run_load_unitMap :
    Run yawZ (arrive [unitMap] [] []) (PlanningMethodFlow.new noParams)
      = some (loadedFlow, [Call.Init 0 1 0 1 1 0.2]) := by
  rw [new_noParams]
  simp [Run, ReadData, arrive, loadedFlow, populate_unitMap, initCall_unitMap, searchPhase,
    searchLoopFrom, searchLoop]

theorem run_load_fineMap :
    Run yawZ (arrive [fineMap] [] []) (PlanningMethodFlow.new noParams) = none := by
  rw [new_noParams]
  simp [Run, ReadData, arrive, loadedFlow, populate_fineMap]

theorem run_search_loaded :
    Run yawZ (arrive [coarseMap] [poseA] [poseB]) loadedFlow
      = some (searchedFlow, [Call.Search ⟨0, 0, 0⟩ ⟨3, 4, 1⟩]) := by
  simp [Run, ReadData, arrive, loadedFlow, searchedFlow, searchPhase, searchLoopFrom,
    searchLoop, toState, yawZ, poseA, poseB]

theorem isSearch_iff (c : Call) : c.isSearch = true ↔ ∃ a b, c = Call.Search a b := by
  cases c with
  | Init a b c d e f => simp [Call.isSearch]
  | SetObstacle w h => simp [Call.isSearch]
  | Search a b => simp [Call.isSearch]

theorem zipWith_getElem_some (getYaw : Quaternion → ℚ) :
    ∀ (inits goals : List PoseMsg) (k : Nat) (i g : PoseMsg),
      inits[k]? = some i → goals[k]? = some g →
      (List.zipWith (fun i g => Call.Search (toState getYaw i) (toState getYaw g))
        inits goals)[k]? = some (Call.Search (toState getYaw i) (toState getYaw g)) := by
  intro inits
  induction inits with
  | nil => intro goals k i g hi; simp at hi
  | cons a inits ih =>
    intro goals k i g hi hg
    cases goals with
    | nil => simp at hg
    | cons b goals =>
      cases k with
      | zero =>
        simp only [List.getElem?_cons_zero, Option.some.injEq] at hi hg
        subst hi; subst hg
        simp
      | succ k =>
        simp only [List.getElem?_cons_succ] at hi hg
        simpa using ih goals k i g hi hg

theorem drop_min_nil (inits goals : List PoseMsg) :
    inits.drop (min inits.length goals.length) = [] ∨
    goals.drop (min inits.length goals.length) = [] := by
  rcases Nat.le_total inits.length goals.length with h | h
  · left; rw [Nat.min_eq_left h]; exact List.drop_eq_nil_of_le (Nat.le_refl _)
  · right; rw [Nat.min_eq_right h]; exact List.drop_eq_nil_of_le (Nat.le_refl _)

/-! ## The claims -/

/-- C1, evaluated at a map whose origin is not zero: for the one-cell map with
origin `(1, 1)` and resolution 1 the `Init` call of `Run` receives
`x_upper = 1` and `y_upper = 1`, the extent alone, while origin plus extent
is `2` on both axes. -/
theorem init_upper_bound_shiftedMap :
    (Run yawZ (arrive [shiftedMap] [] []) (PlanningMethodFlow.new noParams)).map Prod.snd
        = some [Call.Init 1 1 1 1 1 0.2] ∧
    shiftedMap.origin_x + (shiftedMap.width : ℚ) * shiftedMap.resolution = 2 ∧
    shiftedMap.origin_y + (shiftedMap.height : ℚ) * shiftedMap.resolution = 2 := by
  refine ⟨?_, by norm_num [shiftedMap], by norm_num [shiftedMap]⟩
  rw [new_noParams]
  simp [Run, ReadData, arrive, loadedFlow, populate_shiftedMap, initCall_shiftedMap,
    searchPhase, searchLoopFrom, searchLoop]

/-- C2, evaluated at a free map with native cells half a unit wide: on the two by
two map `fineMap`, whose four cells are all zero, the loop visits the finer cell
`(0, 5)`, computes the native row `2`, which is not a row of the map, and reads
`data` at index `4`, outside the array of length `4`; the finer cell `(5, 0)`
computes the native column `2`, not a column of the map, and reads index `2`,
which is the cell of column `0` in row `1`.  The calls of the `Run` that loads
this map are therefore not determined by the native cells. -/
theorem free_map_read_outside_fineMap :
    (0 < fineMap.resolution ∧ fineMap.data.length = fineMap.width * fineMap.height ∧
      ∀ v ∈ fineMap.data, v = 0) ∧
    map_w fineMap = some 10 ∧ map_h fineMap = some 10 ∧
    nativeX fineMap 0 = some 0 ∧ nativeY fineMap 5 = some 2 ∧ ¬ (2 < fineMap.height) ∧
    dataIndex fineMap 0 5 = some 4 ∧ fineMap.data[4]? = none ∧
    nativeX fineMap 5 = some 2 ∧ nativeY fineMap 0 = some 0 ∧ ¬ (2 < fineMap.width) ∧
    dataIndex fineMap 5 0 = some (1 * fineMap.width + 0) ∧
    cellBody fineMap 0 5 = none ∧ populate fineMap = none ∧
    Run yawZ (arrive [fineMap] [] []) (PlanningMethodFlow.new noParams) = none := by
  refine ⟨⟨by norm_num [fineMap], rfl, by simp [fineMap]⟩, ?_, ?_, nativeX_fineMap_zero,
    nativeY_fineMap_five, by decide, dataIndex_fineMap_outside, rfl, nativeX_fineMap_five,
    nativeY_fineMap_zero, by decide, dataIndex_fineMap_wrapped,
    cellBody_none_of_index fineMap 0 5 4 dataIndex_fineMap_outside rfl, populate_fineMap,
    run_load_fineMap⟩
  · rw [map_w_eq]; rfl
  · rw [map_h_eq]; rfl

theorem runs_wait_then_load :
    runs yawZ (PlanningMethodFlow.new noParams)
        [arrive [] [poseA] [poseB], arrive [unitMap] [] []]
      = some (searchedFlow, [Call.Init 0 1 0 1 1 0.2, Call.Search ⟨0, 0, 0⟩ ⟨3, 4, 1⟩]) := by
  rw [new_noParams]
  simp [runs, Run, ReadData, arrive, loadedFlow, searchedFlow, populate_unitMap,
    initCall_unitMap, searchPhase, searchLoopFrom, searchLoop, toState, yawZ, poseA, poseB]

/-- C3: in every sequence of `Run` calls on a freshly constructed flow that runs
to its end, either no map has been loaded and no call at all has been made on
the searcher, or the calls are the `Init` call of the loaded map, then the whole
population loop of that map (`SetObstacle` calls only), and only then `Search`
calls; and a `Run` that finds no map loaded and an empty costmap queue returns
without any call, whatever the pose queues hold. -/
theorem no_search_before_map_loaded (getYaw : Quaternion → ℚ) (nh : NodeHandle)
    (inputs : List ReadInput) (s1 : PlanningMethodFlow) (trace : List Call)
    (hrun : runs getYaw (PlanningMethodFlow.new nh) inputs = some (s1, trace)) :
    (((s1).has_map = false ∧ trace = []) ∨
      ∃ m obstacles searches, (s1).has_map = true ∧ (s1).current_costmap = some m ∧
        populate m = some obstacles ∧ (∀ c ∈ obstacles, ∃ w h, c = Call.SetObstacle w h) ∧
        trace = initCall m :: obstacles ++ searches ∧
        ∀ c ∈ searches, ∃ a b, c = Call.Search a b) ∧
    ∀ (rd : ReadInput) (s : PlanningMethodFlow), (ReadData rd s).has_map = false →
      (ReadData rd s).costmap_deque = [] → Run getYaw rd s = some (ReadData rd s, []) := by
  refine ⟨?_, fun rd s h hq => Run_waiting getYaw rd s h hq⟩
  rcases runs_unloaded getYaw inputs _ s1 trace rfl hrun with h | h
  · exact Or.inl h
  · obtain ⟨m, obstacles, searches, h1, h2, h3, h4, h5⟩ := h
    refine Or.inr ⟨m, obstacles, searches, h1, h2, h3, ?_, h4, ?_⟩
    · intro c hc
      exact populate_only_setObstacle m obstacles h3 c hc
    · intro c hc
      exact (isSearch_iff c).mp (h5 c hc)

/-- C3 at two `Run`s: the first sees a queued pose pair but no map, the second
sees the map. -/
theorem no_search_before_map_loaded_witness :
    runs yawZ (PlanningMethodFlow.new noParams)
        [arrive [] [poseA] [poseB], arrive [unitMap] [] []]
      = some (searchedFlow, [Call.Init 0 1 0 1 1 0.2, Call.Search ⟨0, 0, 0⟩ ⟨3, 4, 1⟩]) ∧
    ((((searchedFlow).has_map = false ∧ [Call.Init 0 1 0 1 1 0.2, Call.Search ⟨0, 0, 0⟩ ⟨3, 4, 1⟩] = []) ∨
      ∃ m obstacles searches, (searchedFlow).has_map = true ∧ (searchedFlow).current_costmap = some m ∧
        populate m = some obstacles ∧ (∀ c ∈ obstacles, ∃ w h, c = Call.SetObstacle w h) ∧
        [Call.Init 0 1 0 1 1 0.2, Call.Search ⟨0, 0, 0⟩ ⟨3, 4, 1⟩] = initCall m :: obstacles ++ searches ∧
        ∀ c ∈ searches, ∃ a b, c = Call.Search a b) ∧
    ∀ (rd : ReadInput) (s : PlanningMethodFlow), (ReadData rd s).has_map = false →
      (ReadData rd s).costmap_deque = [] → Run yawZ rd s = some (ReadData rd s, [])) :=
  ⟨runs_wait_then_load,
    no_search_before_map_loaded yawZ noParams
      [arrive [] [poseA] [poseB], arrive [unitMap] [] []] searchedFlow
      [Call.Init 0 1 0 1 1 0.2, Call.Search ⟨0, 0, 0⟩ ⟨3, 4, 1⟩] runs_wait_then_load⟩

theorem filter_isSearch_calls (m : OccupancyGrid) (obstacles searches : List Call)
    (hp : populate m = some obstacles) (hs : ∀ c ∈ searches, c.isSearch = true) :
    (initCall m :: obstacles ++ searches).filter Call.isSearch = searches := by
  have h1 : obstacles.filter Call.isSearch = [] := by
    rw [List.filter_eq_nil_iff]
    intro c hc
    obtain ⟨w, h, rfl⟩ := populate_only_setObstacle m obstacles hp c hc
    simp [Call.isSearch]
  have h2 : searches.filter Call.isSearch = searches := List.filter_eq_self.mpr hs
  have h3 : (initCall m).isSearch = false := rfl
  rw [List.cons_append, List.filter_cons_of_neg (by simp [h3]), List.filter_append, h1, h2,
    List.nil_append]

/-- The search phase on a state: its calls and its queues. -/
theorem searchPhase_pairs (getYaw : Quaternion → ℚ) (s : PlanningMethodFlow) :
    (searchPhase getYaw s).2
        = List.zipWith (fun i g => Call.Search (toState getYaw i) (toState getYaw g))
            s.init_pose_deque s.goal_pose_deque ∧
    ((searchPhase getYaw s).2).length = min s.init_pose_deque.length s.goal_pose_deque.length ∧
    (∀ (k : Nat) (i g : PoseMsg), s.init_pose_deque[k]? = some i →
        s.goal_pose_deque[k]? = some g →
        ((searchPhase getYaw s).2)[k]?
          = some (Call.Search ⟨i.x, i.y, getYaw i.orientation⟩ ⟨g.x, g.y, getYaw g.orientation⟩)) ∧
    (searchPhase getYaw s).1.init_pose_deque = s.init_pose_deque.drop
        (min s.init_pose_deque.length s.goal_pose_deque.length) ∧
    (searchPhase getYaw s).1.goal_pose_deque = s.goal_pose_deque.drop
        (min s.init_pose_deque.length s.goal_pose_deque.length) ∧
    ((searchPhase getYaw s).1.init_pose_deque = [] ∨
      (searchPhase getYaw s).1.goal_pose_deque = []) := by
  obtain ⟨_, _, _, _, hi, hg⟩ := searchPhase_state getYaw s
  refine ⟨searchPhase_calls getYaw s, ?_, ?_, hi, hg, ?_⟩
  · rw [searchPhase_calls, List.length_zipWith]
  · intro k i g h1 h2
    rw [searchPhase_calls]
    exact zipWith_getElem_some getYaw _ _ k i g h1 h2
  · rw [hi, hg]; exact drop_min_nil _ _

/-- C4: a `Run` that reaches the search loop with the init poses `I` and the
goal poses `G` queued after `ReadData` makes exactly `min |I| |G|` `Search`
calls, the `k`-th with start `(x, y, yaw)` of the `k`-th init pose and goal
`(x, y, yaw)` of the `k`-th goal pose; afterwards each queue has lost its first
`min |I| |G|` entries, keeps the others in order, and one of the two is empty. -/
theorem search_loop_pairs_fifo (getYaw : Quaternion → ℚ) (rd : ReadInput)
    (s s1 : PlanningMethodFlow) (calls : List Call)
    (hrun : Run getYaw rd s = some (s1, calls))
    (hreach : (ReadData rd s).has_map = true ∨ (ReadData rd s).costmap_deque ≠ []) :
    calls.filter Call.isSearch
        = List.zipWith (fun i g => Call.Search (toState getYaw i) (toState getYaw g))
            (ReadData rd s).init_pose_deque (ReadData rd s).goal_pose_deque ∧
    (calls.filter Call.isSearch).length
        = min (ReadData rd s).init_pose_deque.length (ReadData rd s).goal_pose_deque.length ∧
    (∀ (k : Nat) (i g : PoseMsg), (ReadData rd s).init_pose_deque[k]? = some i →
        (ReadData rd s).goal_pose_deque[k]? = some g →
        (calls.filter Call.isSearch)[k]?
          = some (Call.Search ⟨i.x, i.y, getYaw i.orientation⟩ ⟨g.x, g.y, getYaw g.orientation⟩)) ∧
    (s1).init_pose_deque = (ReadData rd s).init_pose_deque.drop
        (min (ReadData rd s).init_pose_deque.length (ReadData rd s).goal_pose_deque.length) ∧
    (s1).goal_pose_deque = (ReadData rd s).goal_pose_deque.drop
        (min (ReadData rd s).init_pose_deque.length (ReadData rd s).goal_pose_deque.length) ∧
    ((s1).init_pose_deque = [] ∨ (s1).goal_pose_deque = []) := by
  cases hm : (ReadData rd s).has_map with
  | true =>
    rw [Run_loaded getYaw rd s hm] at hrun
    have h1 : s1 = (searchPhase getYaw (ReadData rd s)).1 := by
      have := Option.some.inj hrun; rw [this]
    have h2 : calls = (searchPhase getYaw (ReadData rd s)).2 := by
      have := Option.some.inj hrun; rw [this]
    have hf : calls.filter Call.isSearch = calls := by
      rw [List.filter_eq_self, h2, searchPhase_calls]
      exact zipWith_search_isSearch getYaw _ _
    rw [hf, h1, h2]
    exact searchPhase_pairs getYaw (ReadData rd s)
  | false =>
    rcases hreach with h | h
    · rw [hm] at h; cases h
    · cases hq : (ReadData rd s).costmap_deque with
      | nil => exact absurd hq h
      | cons m rest =>
        rw [Run_loading getYaw rd s m rest hm hq] at hrun
        cases hp : populate m with
        | none => simp [hp] at hrun
        | some obstacles =>
          simp only [hp, Option.some.injEq, Prod.mk.injEq] at hrun
          obtain ⟨h1, h2⟩ := hrun
          have hf : calls.filter Call.isSearch
              = (searchPhase getYaw { ReadData rd s with
                  current_costmap := some m, costmap_deque := rest, has_map := true }).2 := by
            rw [← h2]
            refine filter_isSearch_calls m obstacles _ hp ?_
            rw [searchPhase_calls]
            exact zipWith_search_isSearch getYaw _ _
          rw [hf, ← h1]
          exact searchPhase_pairs getYaw { ReadData rd s with
            current_costmap := some m, costmap_deque := rest, has_map := true }

theorem run_two_inits_one_goal :
    Run yawZ (arrive [] [poseA, poseC] [poseB]) loadedFlow
      = some ({ searchedFlow with init_pose_deque := [poseC] },
          [Call.Search ⟨0, 0, 0⟩ ⟨3, 4, 1⟩]) := by
  simp [Run, ReadData, arrive, loadedFlow, searchedFlow, searchPhase, searchLoopFrom, searchLoop, toState,
    yawZ, poseA, poseB]

/-- C4 at a loaded flow on which two init poses and one goal pose arrive. -/
theorem search_loop_pairs_fifo_witness :
    (Run yawZ (arrive [] [poseA, poseC] [poseB]) loadedFlow
        = some ({ searchedFlow with init_pose_deque := [poseC] },
            [Call.Search ⟨0, 0, 0⟩ ⟨3, 4, 1⟩]) ∧
      ((ReadData (arrive [] [poseA, poseC] [poseB]) loadedFlow).has_map = true ∨
        (ReadData (arrive [] [poseA, poseC] [poseB]) loadedFlow).costmap_deque ≠ [])) ∧
    ([Call.Search ⟨0, 0, 0⟩ ⟨3, 4, 1⟩].filter Call.isSearch
        = List.zipWith (fun i g => Call.Search (toState yawZ i) (toState yawZ g))
            (ReadData (arrive [] [poseA, poseC] [poseB]) loadedFlow).init_pose_deque (ReadData (arrive [] [poseA, poseC] [poseB]) loadedFlow).goal_pose_deque ∧
    ([Call.Search ⟨0, 0, 0⟩ ⟨3, 4, 1⟩].filter Call.isSearch).length
        = min (ReadData (arrive [] [poseA, poseC] [poseB]) loadedFlow).init_pose_deque.length (ReadData (arrive [] [poseA, poseC] [poseB]) loadedFlow).goal_pose_deque.length ∧
    (∀ (k : Nat) (i g : PoseMsg), (ReadData (arrive [] [poseA, poseC] [poseB]) loadedFlow).init_pose_deque[k]? = some i →
        (ReadData (arrive [] [poseA, poseC] [poseB]) loadedFlow).goal_pose_deque[k]? = some g →
        ([Call.Search ⟨0, 0, 0⟩ ⟨3, 4, 1⟩].filter Call.isSearch)[k]?
          = some (Call.Search ⟨i.x, i.y, yawZ i.orientation⟩ ⟨g.x, g.y, yawZ g.orientation⟩)) ∧
    ({ searchedFlow with init_pose_deque := [poseC] }).init_pose_deque = (ReadData (arrive [] [poseA, poseC] [poseB]) loadedFlow).init_pose_deque.drop
        (min (ReadData (arrive [] [poseA, poseC] [poseB]) loadedFlow).init_pose_deque.length (ReadData (arrive [] [poseA, poseC] [poseB]) loadedFlow).goal_pose_deque.length) ∧
    ({ searchedFlow with init_pose_deque := [poseC] }).goal_pose_deque = (ReadData (arrive [] [poseA, poseC] [poseB]) loadedFlow).goal_pose_deque.drop
        (min (ReadData (arrive [] [poseA, poseC] [poseB]) loadedFlow).init_pose_deque.length (ReadData (arrive [] [poseA, poseC] [poseB]) loadedFlow).goal_pose_deque.length) ∧
    (({ searchedFlow with init_pose_deque := [poseC] }).init_pose_deque = [] ∨ ({ searchedFlow with init_pose_deque := [poseC] }).goal_pose_deque = [])) :=
  ⟨⟨run_two_inits_one_goal, Or.inl rfl⟩,
    search_loop_pairs_fifo yawZ (arrive [] [poseA, poseC] [poseB]) loadedFlow
      { searchedFlow with init_pose_deque := [poseC] } [Call.Search ⟨0, 0, 0⟩ ⟨3, 4, 1⟩]
      run_two_inits_one_goal (Or.inl rfl)⟩

/-- C5, refuted: after `unitMap` has been loaded, a `Run` that finds the new
map `coarseMap` and a pose pair queued makes the `Search` call alone, with no
`Init` and no `SetObstacle` before it, and keeps `unitMap` as its map. -/
theorem second_map_not_loaded :
    Run yawZ (arrive [unitMap] [] []) (PlanningMethodFlow.new noParams)
        = some (loadedFlow, [Call.Init 0 1 0 1 1 0.2]) ∧
    Run yawZ (arrive [coarseMap] [poseA] [poseB]) loadedFlow
        = some (searchedFlow, [Call.Search ⟨0, 0, 0⟩ ⟨3, 4, 1⟩]) ∧
    (ReadData (arrive [coarseMap] [poseA] [poseB]) loadedFlow).costmap_deque = [coarseMap] ∧
    searchedFlow.current_costmap = some unitMap ∧ coarseMap ≠ unitMap :=
  ⟨run_load_unitMap, run_search_loaded, rfl, rfl, by simp [coarseMap, unitMap]⟩

/-- C5 as amended: a `Run` on a flow that has its map completes, makes `Search`
calls only (neither `Init` nor `SetObstacle`), empties the costmap queue, so
that a map message that has arrived is discarded, and keeps the map it had. -/
theorem later_map_discarded (getYaw : Quaternion → ℚ) (rd : ReadInput)
    (s : PlanningMethodFlow) (h : s.has_map = true) :
    ∃ s1 calls, Run getYaw rd s = some (s1, calls) ∧
      (∀ c ∈ calls, ∃ a b, c = Call.Search a b) ∧ s1.costmap_deque = [] ∧
      s1.current_costmap = (s).current_costmap ∧ s1.has_map = true := by
  obtain ⟨hm, hc, hq, _, _, _⟩ := searchPhase_state getYaw (ReadData rd s)
  refine ⟨(searchPhase getYaw (ReadData rd s)).1, (searchPhase getYaw (ReadData rd s)).2,
    Run_loaded getYaw rd s h, ?_, hq, hc, ?_⟩
  · intro c hc1
    rw [searchPhase_calls] at hc1
    exact (isSearch_iff c).mp (zipWith_search_isSearch getYaw _ _ c hc1)
  · rw [hm]; exact h

/-- C5 as amended, at the loaded flow on which `coarseMap` and a pose pair
arrive. -/
theorem later_map_discarded_witness :
    loadedFlow.has_map = true ∧
    (∃ s1 calls, Run yawZ (arrive [coarseMap] [poseA] [poseB]) loadedFlow = some (s1, calls) ∧
      (∀ c ∈ calls, ∃ a b, c = Call.Search a b) ∧ s1.costmap_deque = [] ∧
      s1.current_costmap = (loadedFlow).current_costmap ∧ s1.has_map = true) :=
  ⟨rfl, later_map_discarded yawZ (arrive [coarseMap] [poseA] [poseB]) loadedFlow rfl⟩

/-- C6: from a flow that has its map, every sequence of `Run` calls completes,
makes `Search` calls only (no `Init`, no `SetObstacle`), keeps the loaded map and
leaves `has_map_` true, whatever messages arrive. -/
theorem loaded_map_never_reloaded (getYaw : Quaternion → ℚ) (s : PlanningMethodFlow)
    (inputs : List ReadInput) (h : s.has_map = true) :
    ∃ s1 trace, runs getYaw s inputs = some (s1, trace) ∧ s1.has_map = true ∧
      s1.current_costmap = (s).current_costmap ∧ ∀ c ∈ trace, ∃ a b, c = Call.Search a b := by
  obtain ⟨s1, trace, h1, h2, h3, h4⟩ := runs_loaded getYaw inputs s h
  exact ⟨s1, trace, h1, h2, h3, fun c hc => (isSearch_iff c).mp (h4 c hc)⟩

/-- C6 at the loaded flow, for two `Run`s on each of which a new map arrives. -/
theorem loaded_map_never_reloaded_witness :
    loadedFlow.has_map = true ∧
    (∃ s1 trace, runs yawZ loadedFlow [arrive [coarseMap] [poseA] [poseB], arrive [halfMap] [poseC] []] = some (s1, trace) ∧ s1.has_map = true ∧
      s1.current_costmap = (loadedFlow).current_costmap ∧ ∀ c ∈ trace, ∃ a b, c = Call.Search a b) :=
  ⟨rfl, loaded_map_never_reloaded yawZ loadedFlow
    [arrive [coarseMap] [poseA] [poseB], arrive [halfMap] [poseC] []] rfl⟩

theorem paramInt_eq (nh : NodeHandle) (name : String) (d : Int) :
    nh.paramInt name d = (nh.getInt name).getD d := by
  unfold NodeHandle.paramInt
  cases nh.getInt name <;> rfl

theorem paramDouble_eq (nh : NodeHandle) (name : String) (d : ℚ) :
    nh.paramDouble name d = (nh.getDouble name).getD d := by
  unfold NodeHandle.paramDouble
  cases nh.getDouble name <;> rfl

/-- The nine arguments of the constructor call, by position: each is the
`nh.param` value of one `planner/*` name with its default. -/
theorem constructor_arguments (nh : NodeHandle) :
    (PlanningMethodFlow.new nh).kinodynamic_searcher.arg1
        = (((nh.getInt "planner/steering_angle").getD 10 : Int) : ℚ) ∧
    (PlanningMethodFlow.new nh).kinodynamic_searcher.arg2
        = (nh.getInt "planner/steering_angle_discrete_num").getD 1 ∧
    (PlanningMethodFlow.new nh).kinodynamic_searcher.arg3
        = (nh.getDouble "planner/segment_length").getD 1.6 ∧
    (PlanningMethodFlow.new nh).kinodynamic_searcher.arg4
        = (nh.getInt "planner/segment_length_discrete_num").getD 8 ∧
    (PlanningMethodFlow.new nh).kinodynamic_searcher.arg5
        = (nh.getDouble "planner/wheel_base").getD 1.0 ∧
    (PlanningMethodFlow.new nh).kinodynamic_searcher.arg6
        = (nh.getDouble "planner/steering_penalty").getD 1.5 ∧
    (PlanningMethodFlow.new nh).kinodynamic_searcher.arg7
        = (nh.getDouble "planner/reversing_penalty").getD 2.0 ∧
    (PlanningMethodFlow.new nh).kinodynamic_searcher.arg8
        = (nh.getDouble "planner/steering_change_penalty").getD 2.0 ∧
    (PlanningMethodFlow.new nh).kinodynamic_searcher.arg9
        = (nh.getDouble "planner/shot_distance").getD 5.0 := by
  simp [PlanningMethodFlow.new, paramInt_eq, paramDouble_eq]

/-- C7, evaluated at a store in which the caller has set the steering angle to
`12.5`: the first constructor argument, the steering angle, is `10` and not the
supplied `12.5`, and for every parameter store it is a whole number, because
line 11 reads it with the `int` default `10`; the wheel base, read with the
`double` default `1.0` at line 14, does receive its supplied `2.5`. -/
theorem steering_angle_read_as_int :
    fractionalSteering.getDouble "planner/steering_angle" = some 12.5 ∧
    (PlanningMethodFlow.new fractionalSteering).kinodynamic_searcher.arg1 = 10 ∧
    (PlanningMethodFlow.new fractionalSteering).kinodynamic_searcher.arg1 ≠ 12.5 ∧
    (∀ nh : NodeHandle, ∃ z : Int,
      (PlanningMethodFlow.new nh).kinodynamic_searcher.arg1 = (z : ℚ)) ∧
    (∀ nh : NodeHandle, (PlanningMethodFlow.new nh).kinodynamic_searcher.arg1 ≠ 12.5) ∧
    fractionalSteering.getDouble "planner/wheel_base" = some 2.5 ∧
    (PlanningMethodFlow.new fractionalSteering).kinodynamic_searcher.arg5 = 2.5 := by
  have hint : ∀ nh : NodeHandle, ∃ z : Int,
      (PlanningMethodFlow.new nh).kinodynamic_searcher.arg1 = (z : ℚ) :=
    fun nh => ⟨nh.paramInt "planner/steering_angle" 10, rfl⟩
  have hne : ∀ nh : NodeHandle,
      (PlanningMethodFlow.new nh).kinodynamic_searcher.arg1 ≠ 12.5 := by
    intro nh hc
    obtain ⟨z, hz⟩ := hint nh
    rw [hz] at hc
    have h2 : ((2 * z : Int) : ℚ) = ((25 : Int) : ℚ) := by
      push_cast; rw [hc]; norm_num
    have h3 : 2 * z = 25 := by exact_mod_cast h2
    omega
  refine ⟨by simp [fractionalSteering], ?_, hne _, hint, hne, by simp [fractionalSteering], ?_⟩
  · simp [PlanningMethodFlow.new, NodeHandle.paramInt, fractionalSteering]
  · simp [PlanningMethodFlow.new, NodeHandle.paramDouble, fractionalSteering]

/-- C9, evaluated at a map with native cells half a unit wide: on the one-cell
map `halfMap` the loop visits the finer cell `(2, 0)` (both bounds are `5`),
computes the native column `1`, which is not below the width `1`, and reads
`data` at index `1`, outside the array of length `1`. -/
theorem read_out_of_range_halfMap :
    (0 < halfMap.resolution ∧ 1 ≤ halfMap.width ∧ 1 ≤ halfMap.height ∧
      halfMap.data.length = halfMap.width * halfMap.height) ∧
    map_w halfMap = some 5 ∧ map_h halfMap = some 5 ∧
    nativeX halfMap 2 = some 1 ∧ ¬ (1 < halfMap.width) ∧
    dataIndex halfMap 2 0 = some 1 ∧ ¬ (1 < halfMap.width * halfMap.height) ∧
    halfMap.data[1]? = none ∧
    populate halfMap = none := by
  refine ⟨⟨by norm_num [halfMap], by decide, by decide, rfl⟩, ?_, ?_, nativeX_halfMap_two,
    by decide, dataIndex_halfMap, by decide, rfl, populate_halfMap⟩
  · rw [map_w_eq]; rfl
  · rw [map_h_eq]; rfl

/-- C10, evaluated at a map with native cells two units wide: on `coarseMap` the
native cell `(1, 0)` is nonzero, yet the population loop, which visits the
finer columns below `10`, makes no `SetObstacle` call at all: the centre of
every visited finer column lies left of that cell. -/
theorem obstacle_lost_coarseMap :
    ((0.2 : ℚ) ≤ coarseMap.resolution ∧ 1 ≤ coarseMap.width ∧ 1 ≤ coarseMap.height ∧
      coarseMap.data.length = coarseMap.width * coarseMap.height) ∧
    coarseMap.data[0 * coarseMap.width + 1]? = some 1 ∧
    populate coarseMap = some [] ∧
    map_w coarseMap = some 10 ∧
    ∀ w : Nat, w < 10 → ((w : ℚ) + 0.5) * 0.2 < 1 * coarseMap.resolution := by
  refine ⟨⟨by norm_num [coarseMap], by decide, by decide, rfl⟩, rfl, populate_coarseMap,
    by rw [map_w_eq]; rfl, ?_⟩
  intro w hw10
  have h1 : (w : ℚ) + 1 ≤ 10 := by exact_mod_cast hw10
  have h2 : coarseMap.resolution = 2 := rfl
  rw [h2]
  norm_num
  linarith

end PlanningFlow
